import Mathlib

/-!
Verification development for the TCP-Sim discrete-event simulator.

Shallow embedding of the core components (`core/packet.py`, `core/link.py`,
`loss/bursty.py`, `tcp/reno.py`, `tcp/cubic.py`):

* Pure Python methods become Lean functions; methods that mutate `self`
  become functions from the state record to a new state record.
* Python `float` arithmetic is modelled over `ℚ`; Python `int` over `ℤ`
  (or `ℕ` for quantities that are provably non-negative, such as Reno's
  integer `cwnd`, where Python `//` agrees with `Nat` division).
* Calls to `random.random()` are made explicit: each function takes the
  drawn values as arguments, so behaviour is a deterministic function of
  the sequence of draws.
* Flow handlers return `Except String (state × sent × events)`: an
  uncaught exception or failed assertion in the source would be
  `.error`; the source raises on no path, so every branch is `.ok`.
  `sent : Option ℤ` is the sequence number of the packet handed to
  `link.enqueue` by the handler (`none` when nothing is retransmitted),
  and `events` is the list of diagnostic events emitted to the logger.
* The cube root used for CUBIC's `K` (Python `x ** (1/3)`) is passed in
  as an explicit function argument `cbrt : ℚ → ℚ`; no claim depends on
  its value.
-/

namespace TCPSim

/-- Packet record (`core/packet.py`): the fields consulted by the core
simulation paths. `flow`/`flow_id` back-references and the dead
`is_ack`/`ack_for` fields are not part of the per-flow embedding. -/
structure Packet where
  seq : ℤ
  size_bytes : ℕ
  send_time : Option ℚ := none
  deriving DecidableEq, Repr

/-- Diagnostic events emitted by a flow to the logger, parameterised by
the congestion-window numeric type (`ℕ` for Reno, `ℚ` for Cubic). -/
inductive FlowEvent (W : Type) where
  | rttSample (seq : ℤ) (rtt : ℚ)
  | stateChange
  | cwndRecord (c : W)
  | timeoutEvent
  | retransmitTimeout (seq : ℤ)
  | fastRecoveryEnter
  | fastRetransmit (seq : ℤ)
  | noCandidate (dupAckSeq : ℤ)
  | ackRecord (ackSeq : ℤ)
  deriving DecidableEq, Repr

/-- `true` iff an `Except` result is an abort (an uncaught exception in
the source). -/
def isAbort {α : Type} : Except String α → Bool
  | .error _ => true
  | .ok _ => false

/-! ## Loss modules (`loss/bursty.py`) -/

/-- Gilbert-Elliott channel state of `BurstyLoss`. -/
inductive GEState where
  | GOOD
  | BAD
  deriving DecidableEq, Repr

/-- State of `BurstyLoss` (`loss/bursty.py`). -/
structure BurstyLoss where
  state : GEState
  p_good : ℚ
  p_bad : ℚ
  avg_good_duration : ℕ
  avg_bad_duration : ℕ
  deriving DecidableEq, Repr

/-- `BurstyLoss.update_state`: `u` is the value drawn by
`random.random()`. -/
def BurstyLoss.update_state (u : ℚ) (b : BurstyLoss) : BurstyLoss :=
  match b.state with
  | .GOOD => if u < 1 / (b.avg_good_duration : ℚ) then { b with state := .BAD } else b
  | .BAD => if u < 1 / (b.avg_bad_duration : ℚ) then { b with state := .GOOD } else b

/-- `BurstyLoss.should_drop`: `u1` is the draw consumed by
`update_state`, `u2` the draw compared against the per-state drop
probability; the packet itself is not consulted. Returns the drop
decision and the updated module state. -/
def BurstyLoss.should_drop (u1 u2 : ℚ) (b : BurstyLoss) (_pkt : Packet) : Bool × BurstyLoss :=
  let b1 := b.update_state u1
  match b1.state with
  | .GOOD => (decide (u2 < b1.p_good), b1)
  | .BAD => (decide (u2 < b1.p_bad), b1)

/-! ## Link (`core/link.py`) -/

/-- Outcome of an admission attempt (`Link.enqueue` returns `True` for
admission and `False` for either kind of drop; the enum distinguishes
the two drop branches of the source). -/
inductive EnqueueResult where
  | Admitted
  | DroppedByLoss
  | DroppedQueueFull
  deriving DecidableEq, Repr

/-- Link state (`core/link.py`): the bounded FIFO queue (a
`simpy.Store` in the source) plus the attached loss module's state, of
abstract type `σ`. Bandwidth and propagation delay are passed to the
transmission step directly. -/
structure LinkState (σ : Type) where
  queue : List Packet
  capacity : ℕ
  lossState : σ
  deriving DecidableEq, Repr

/-- `Link.enqueue`: the optional loss module is an explicit
state-transformer `σ → Packet → Bool × σ` (for `BurstyLoss` it is
`should_drop` at fixed draws). The module is consulted first and its
state update is kept on every branch; then the bounded queue admits the
packet iff it is not full. -/
def Link.enqueue {σ : Type} (lossModule : Option (σ → Packet → Bool × σ))
    (pkt : Packet) (l : LinkState σ) : EnqueueResult × LinkState σ :=
  match lossModule with
  | some sd =>
    let r := sd l.lossState pkt
    let l1 := { l with lossState := r.2 }
    if r.1 then (.DroppedByLoss, l1)
    else if l1.queue.length < l1.capacity then
      (.Admitted, { l1 with queue := l1.queue ++ [pkt] })
    else (.DroppedQueueFull, l1)
  | none =>
    if l.queue.length < l.capacity then
      (.Admitted, { l with queue := l.queue ++ [pkt] })
    else (.DroppedQueueFull, l)

/-- Serialization delay of `Link.run`:
`tx_time = size_bytes * 8 / (bandwidth_mbps * 1e6)` seconds. -/
def txTime (bandwidth_mbps : ℚ) (size_bytes : ℕ) : ℚ :=
  (size_bytes * 8 : ℚ) / (bandwidth_mbps * 1000000)

/-- One iteration of the `Link.run` loop: dequeue the head packet
(FIFO) and deliver it to its flow's arrival handler after
`tx_time + prop_delay` seconds. Returns the delivered packet, the
delay from dequeue to arrival, and the remaining queue; `none` when
the queue is empty (the source blocks on `queue.get()`). -/
def Link.runStep (bandwidth_mbps prop_delay : ℚ) (queue : List Packet) :
    Option (Packet × ℚ × List Packet) :=
  match queue with
  | [] => none
  | pkt :: rest => some (pkt, txTime bandwidth_mbps pkt.size_bytes + prop_delay, rest)

/-! ## Shared helpers for the flows -/

/-- Minimum sequence number of a list of packets
(Python `min(self.unacked.keys())`); `0` on the empty list, on which
the source never calls it. -/
def minSeqD : List Packet → ℤ
  | [] => 0
  | [p] => p.seq
  | p :: q :: ps => min p.seq (minSeqD (q :: ps))

/-- The receiver's contiguous-prefix advance
(`while self.next_seq in self.received_seqs: self.next_seq += 1`). -/
def advanceNext (s : Finset ℤ) (n : ℤ) : ℤ :=
  if h : n ∈ s then advanceNext s (n + 1) else n
termination_by (s.filter (fun k => n ≤ k)).card
decreasing_by
  apply Finset.card_lt_card
  constructor
  · intro x hx
    rw [Finset.mem_filter] at hx ⊢
    exact ⟨hx.1, by omega⟩
  · intro hsub
    have hn : n ∈ s.filter (fun k => n ≤ k) := Finset.mem_filter.mpr ⟨h, le_refl n⟩
    have := hsub hn
    rw [Finset.mem_filter] at this
    omega

/-! ## Reno flow (`tcp/reno.py`) -/

/-- Reno congestion-control state labels. -/
inductive RenoState where
  | SLOW_START
  | CONGESTION_AVOID
  | FAST_RECOVERY
  deriving DecidableEq, Repr

/-- `RenoFlow` state (`tcp/reno.py` constructor). `cwnd`, `ssthresh`
and the counters are Python non-negative ints, embedded as `ℕ` (Python
`//` agrees with `Nat` division there); sequence numbers and `last_ack`
(initially `-1`) are `ℤ`. `unacked` (a dict `seq -> Packet` in the
source) is a list of packets keyed by their `seq` field. -/
structure RenoFlow where
  state : RenoState
  cwnd : ℕ
  ssthresh : ℕ
  unacked : List Packet
  seq : ℤ
  last_ack : ℤ
  dup_ack_count : ℕ
  ca_ack_count : ℕ
  next_seq : ℤ
  valid_ack_count : ℤ
  received_seqs : Finset ℤ
  deriving DecidableEq

/-- Result type of a Reno handler: new flow state, the sequence number
handed to `link.enqueue` (if any), and the emitted events. -/
abbrev RenoResult := RenoFlow × Option ℤ × List (FlowEvent ℕ)

/-- Initial `RenoFlow` state as set up by the constructor. -/
def RenoFlow.init : RenoFlow where
  state := .SLOW_START
  cwnd := 1
  ssthresh := 64
  unacked := []
  seq := 0
  last_ack := -1
  dup_ack_count := 0
  ca_ack_count := 0
  next_seq := 0
  valid_ack_count := 0
  received_seqs := ∅

/-- `RenoFlow.handle_timeout`: no-op when nothing is outstanding;
otherwise halve `ssthresh`, reset `cwnd` to 1, fall back to slow start,
and retransmit the lowest-sequence unacked packet with a fresh
`send_time`. -/
def RenoFlow.handle_timeout (now : ℚ) (f : RenoFlow) : Except String RenoResult :=
  match f.unacked with
  | [] => .ok (f, none, [])
  | p :: ps =>
    let f1 := { f with
      ssthresh := max (f.cwnd / 2) 1
      cwnd := 1
      state := .SLOW_START
      dup_ack_count := 0
      ca_ack_count := 0 }
    let first_seq := minSeqD (p :: ps)
    let un := f1.unacked.map fun q =>
      if q.seq = first_seq then { q with send_time := some now } else q
    .ok ({ f1 with unacked := un }, some first_seq,
      [.timeoutEvent, .cwndRecord 1, .retransmitTimeout first_seq])

/-- `RenoFlow.handle_retransmit` (fast retransmit / fast recovery):
halve `ssthresh`, set `cwnd = ssthresh + 3`, enter `FAST_RECOVERY`;
then retransmit the smallest unacked sequence strictly greater than the
duplicated ACK, or emit a no-candidate diagnostic and retransmit
nothing. -/
def RenoFlow.handle_retransmit (now : ℚ) (dup_ack_seq : ℤ) (f : RenoFlow) :
    Except String RenoResult :=
  let f1 := { f with
    ssthresh := max (f.cwnd / 2) 1
    cwnd := max (f.cwnd / 2) 1 + 3
    state := .FAST_RECOVERY }
  let evs : List (FlowEvent ℕ) := [.fastRecoveryEnter, .cwndRecord f1.cwnd]
  match f1.unacked.filter (fun q => dup_ack_seq < q.seq) with
  | [] => .ok (f1, none, evs ++ [.noCandidate dup_ack_seq])
  | c :: cs =>
    let missing_seq := minSeqD (c :: cs)
    let un := f1.unacked.map fun q =>
      if q.seq = missing_seq then { q with send_time := some now } else q
    .ok ({ f1 with unacked := un }, some missing_seq,
      evs ++ [.fastRetransmit missing_seq])

/-- `RenoFlow.on_ack`: stale ACKs are ignored; a new ACK cumulatively
removes acked packets (emitting RTT samples), resets the dup-ACK
counter, applies the state-dependent window-growth rule and advances
`last_ack`; a duplicate ACK increments the counter, triggering fast
retransmit at exactly 3 outside `FAST_RECOVERY`, and inflating `cwnd`
inside it. -/
def RenoFlow.on_ack (now : ℚ) (ack_seq : ℤ) (f : RenoFlow) : Except String RenoResult :=
  if ack_seq < f.last_ack then .ok (f, none, [])
  else if ack_seq > f.last_ack then
    let acked := f.unacked.filter (fun q => q.seq ≤ ack_seq)
    let rtts : List (FlowEvent ℕ) := acked.filterMap fun q =>
      match q.send_time with
      | some st => some (.rttSample q.seq (now - st))
      | none => none
    let f1 := { f with
      unacked := f.unacked.filter (fun q => ¬ q.seq ≤ ack_seq)
      dup_ack_count := 0 }
    let step : RenoFlow × List (FlowEvent ℕ) :=
      match f1.state with
      | .SLOW_START =>
        let f2 := { f1 with cwnd := f1.cwnd + 1 }
        if f2.cwnd ≥ f2.ssthresh then
          ({ f2 with state := .CONGESTION_AVOID }, [.stateChange])
        else (f2, [])
      | .CONGESTION_AVOID =>
        let f2 := { f1 with ca_ack_count := f1.ca_ack_count + 1 }
        if f2.ca_ack_count ≥ f2.cwnd then
          ({ f2 with cwnd := f2.cwnd + 1, ca_ack_count := 0 }, [])
        else (f2, [])
      | .FAST_RECOVERY =>
        ({ f1 with cwnd := f1.ssthresh, state := .CONGESTION_AVOID }, [.stateChange])
    let f3 := { step.1 with last_ack := ack_seq }
    .ok (f3, none, rtts ++ step.2 ++ [.cwndRecord f3.cwnd])
  else
    let f1 := { f with dup_ack_count := f.dup_ack_count + 1 }
    if f1.dup_ack_count = 3 ∧ f1.state ≠ .FAST_RECOVERY then
      f1.handle_retransmit now ack_seq
    else if f1.state = .FAST_RECOVERY then
      .ok ({ f1 with cwnd := f1.cwnd + 1 }, none, [.cwndRecord (f1.cwnd + 1)])
    else .ok (f1, none, [])

/-- `RenoFlow.on_packet_arrival`: record the arrived sequence, advance
the contiguous in-order prefix, update the delivered count if the
prefix grew, then feed the cumulative ACK `next_seq - 1` to `on_ack`
and log it. -/
def RenoFlow.on_packet_arrival (now : ℚ) (pkt : Packet) (f : RenoFlow) :
    Except String RenoResult :=
  let rc := insert pkt.seq f.received_seqs
  let newNext := advanceNext rc f.next_seq
  let f1 :=
    if newNext ≠ f.next_seq then
      { f with received_seqs := rc, next_seq := newNext,
               valid_ack_count := max f.valid_ack_count newNext }
    else { f with received_seqs := rc }
  let ack_seq := f1.next_seq - 1
  match f1.on_ack now ack_seq with
  | .ok (f2, sent, evs) => .ok (f2, sent, evs ++ [.ackRecord ack_seq])
  | .error e => .error e

/-! ## Cubic flow (`tcp/cubic.py`) -/

/-- Cubic congestion-control state labels. -/
inductive CubicState where
  | SLOW_START
  | CUBIC_CA
  | FAST_RECOVERY
  deriving DecidableEq, Repr

/-- `CubicFlow` state (`tcp/cubic.py` constructor): like `RenoFlow`
but with a real-valued window and the CUBIC parameters
(`C`, `beta`, `W_max`, `epoch_start`, `K`). -/
structure CubicFlow where
  state : CubicState
  cwnd : ℚ
  ssthresh : ℚ
  unacked : List Packet
  seq : ℤ
  last_ack : ℤ
  dup_ack_count : ℕ
  next_seq : ℤ
  valid_ack_count : ℤ
  received_seqs : Finset ℤ
  C : ℚ
  beta : ℚ
  W_max : ℚ
  epoch_start : Option ℚ
  K : ℚ
  deriving DecidableEq

/-- Result type of a Cubic handler. -/
abbrev CubicResult := CubicFlow × Option ℤ × List (FlowEvent ℚ)

/-- Initial `CubicFlow` state as set up by the constructor
(`C = 0.4`, `beta = 0.7`). -/
def CubicFlow.init : CubicFlow where
  state := .SLOW_START
  cwnd := 1
  ssthresh := 64
  unacked := []
  seq := 0
  last_ack := -1
  dup_ack_count := 0
  next_seq := 0
  valid_ack_count := 0
  received_seqs := ∅
  C := 2 / 5
  beta := 7 / 10
  W_max := 0
  epoch_start := none
  K := 0

/-- Epoch-initialisation prefix of `cubic_update_on_new_ack`: on the
first new ACK of an epoch set `epoch_start = now`, default `W_max` to
the current window when it is still 0, and compute
`K = cbrt(W_max * (1 - beta) / C)` (0 when `W_max ≤ 0`). -/
def CubicFlow.epoch_init (cbrt : ℚ → ℚ) (now : ℚ) (f : CubicFlow) : CubicFlow :=
  match f.epoch_start with
  | some _ => f
  | none =>
    let wmax := if f.W_max = 0 then f.cwnd else f.W_max
    let k := if wmax > 0 then cbrt (wmax * (1 - f.beta) / f.C) else 0
    { f with epoch_start := some now, W_max := wmax, K := k }

/-- The CUBIC window `W_cubic(t) = C * (t - K)^3 + W_max` at
`t = now - epoch_start`, floored at 1.0, as computed by
`cubic_update_on_new_ack` after epoch initialisation. -/
def CubicFlow.W_cubic (now : ℚ) (f : CubicFlow) : ℚ :=
  let t := now - f.epoch_start.getD now
  let w := f.C * (t - f.K) ^ 3 + f.W_max
  if w < 1 then 1 else w

/-- `CubicFlow.cubic_update_on_new_ack`: initialise the epoch if
needed, then move `cwnd` towards `W_cubic` by at most +1.0; never
decrease it on this path. -/
def CubicFlow.cubic_update_on_new_ack (cbrt : ℚ → ℚ) (now : ℚ) (f : CubicFlow) :
    CubicFlow :=
  let f1 := f.epoch_init cbrt now
  let w := f1.W_cubic now
  if w > f1.cwnd then { f1 with cwnd := f1.cwnd + min (w - f1.cwnd) 1 } else f1

/-- `CubicFlow.handle_timeout`: no-op when nothing is outstanding;
otherwise CUBIC multiplicative decrease (`W_max = cwnd`,
`cwnd = max(cwnd * beta, 1)`, `ssthresh = cwnd`), fall back to slow
start, reset the cubic epoch, and retransmit the lowest-sequence
unacked packet with a fresh `send_time`. -/
def CubicFlow.handle_timeout (now : ℚ) (f : CubicFlow) : Except String CubicResult :=
  match f.unacked with
  | [] => .ok (f, none, [])
  | p :: ps =>
    let f1 := { f with
      W_max := f.cwnd
      cwnd := max (f.cwnd * f.beta) 1
      ssthresh := max (f.cwnd * f.beta) 1
      state := .SLOW_START
      dup_ack_count := 0
      epoch_start := none }
    let first_seq := minSeqD (p :: ps)
    let un := f1.unacked.map fun q =>
      if q.seq = first_seq then { q with send_time := some now } else q
    .ok ({ f1 with unacked := un }, some first_seq,
      [.timeoutEvent, .cwndRecord f1.cwnd, .retransmitTimeout first_seq])

/-- `CubicFlow.handle_fast_retransmit`: CUBIC multiplicative decrease,
enter `FAST_RECOVERY`, reset the dup-ACK counter and the cubic epoch;
then retransmit the smallest unacked sequence strictly greater than
the duplicated ACK, or emit a no-candidate diagnostic and retransmit
nothing. -/
def CubicFlow.handle_fast_retransmit (now : ℚ) (dup_ack_seq : ℤ) (f : CubicFlow) :
    Except String CubicResult :=
  let f1 := { f with
    W_max := f.cwnd
    cwnd := max (f.cwnd * f.beta) 1
    ssthresh := max (f.cwnd * f.beta) 1
    state := .FAST_RECOVERY
    dup_ack_count := 0
    epoch_start := none }
  let evs : List (FlowEvent ℚ) := [.fastRecoveryEnter, .cwndRecord f1.cwnd]
  match f1.unacked.filter (fun q => dup_ack_seq < q.seq) with
  | [] => .ok (f1, none, evs ++ [.noCandidate dup_ack_seq])
  | c :: cs =>
    let missing_seq := minSeqD (c :: cs)
    let un := f1.unacked.map fun q =>
      if q.seq = missing_seq then { q with send_time := some now } else q
    .ok ({ f1 with unacked := un }, some missing_seq,
      evs ++ [.fastRetransmit missing_seq])

/-- `CubicFlow.on_ack`: stale ACKs ignored; a new ACK removes acked
packets, resets the dup-ACK counter, applies slow start or the cubic
update (leaving `FAST_RECOVERY` back to `CUBIC_CA`), and advances
`last_ack`; a duplicate ACK increments the counter, triggering fast
retransmit at exactly 3 outside `FAST_RECOVERY`, and inflating `cwnd`
inside it. -/
def CubicFlow.on_ack (cbrt : ℚ → ℚ) (now : ℚ) (ack_seq : ℤ) (f : CubicFlow) :
    Except String CubicResult :=
  if ack_seq < f.last_ack then .ok (f, none, [])
  else if ack_seq > f.last_ack then
    let acked := f.unacked.filter (fun q => q.seq ≤ ack_seq)
    let rtts : List (FlowEvent ℚ) := acked.filterMap fun q =>
      match q.send_time with
      | some st => some (.rttSample q.seq (now - st))
      | none => none
    let f1 := { f with
      unacked := f.unacked.filter (fun q => ¬ q.seq ≤ ack_seq)
      dup_ack_count := 0 }
    let step : CubicFlow × List (FlowEvent ℚ) :=
      match f1.state with
      | .SLOW_START =>
        let f2 := { f1 with cwnd := f1.cwnd + 1 }
        if f2.cwnd ≥ f2.ssthresh then
          ({ f2 with state := .CUBIC_CA, epoch_start := none }, [.stateChange])
        else (f2, [])
      | .CUBIC_CA =>
        (f1.cubic_update_on_new_ack cbrt now, [])
      | .FAST_RECOVERY =>
        let f2 := f1.cubic_update_on_new_ack cbrt now
        ({ f2 with state := .CUBIC_CA }, [.stateChange])
    let f3 := { step.1 with last_ack := ack_seq }
    .ok (f3, none, rtts ++ step.2 ++ [.cwndRecord f3.cwnd])
  else
    let f1 := { f with dup_ack_count := f.dup_ack_count + 1 }
    if f1.dup_ack_count = 3 ∧ f1.state ≠ .FAST_RECOVERY then
      f1.handle_fast_retransmit now ack_seq
    else if f1.state = .FAST_RECOVERY then
      .ok ({ f1 with cwnd := f1.cwnd + 1 }, none, [.cwndRecord (f1.cwnd + 1)])
    else .ok (f1, none, [])

/-- `CubicFlow.on_packet_arrival`: same receiver logic as Reno. -/
def CubicFlow.on_packet_arrival (cbrt : ℚ → ℚ) (now : ℚ) (pkt : Packet)
    (f : CubicFlow) : Except String CubicResult :=
  let rc := insert pkt.seq f.received_seqs
  let newNext := advanceNext rc f.next_seq
  let f1 :=
    if newNext ≠ f.next_seq then
      { f with received_seqs := rc, next_seq := newNext,
               valid_ack_count := max f.valid_ack_count newNext }
    else { f with received_seqs := rc }
  let ack_seq := f1.next_seq - 1
  match f1.on_ack cbrt now ack_seq with
  | .ok (f2, sent, evs) => .ok (f2, sent, evs ++ [.ackRecord ack_seq])
  | .error e => .error e

/-! ## Helper lemmas -/

theorem minSeqD_mem : ∀ (l : List Packet), l ≠ [] → minSeqD l ∈ l.map Packet.seq
  | [p], _ => by simp [minSeqD]
  | p :: q :: ps, _ => by
    rcases le_or_lt p.seq (minSeqD (q :: ps)) with h | h
    · simp [minSeqD, min_eq_left h]
    · have hmem := minSeqD_mem (q :: ps) (by simp)
      rw [minSeqD, min_eq_right h.le]
      simpa using Or.inr (by simpa using hmem)

theorem minSeqD_le : ∀ (l : List Packet), ∀ p ∈ l, minSeqD l ≤ p.seq
  | [q], p, hp => by
    rw [List.mem_singleton] at hp
    simp [minSeqD, hp]
  | q :: r :: ps, p, hp => by
    rw [minSeqD]
    rcases List.mem_cons.1 hp with h | h
    · exact min_le_of_left_le (by rw [h])
    · exact min_le_of_right_le (minSeqD_le (r :: ps) p h)

theorem advanceNext_le (s : Finset ℤ) (n : ℤ) : n ≤ advanceNext s n := by
  rw [advanceNext]
  split
  · exact le_trans (by omega) (advanceNext_le s (n + 1))
  · exact le_refl n
termination_by (s.filter (fun k => n ≤ k)).card
decreasing_by
  apply Finset.card_lt_card
  constructor
  · intro x hx
    rw [Finset.mem_filter] at hx ⊢
    exact ⟨hx.1, by omega⟩
  · intro hsub
    rename_i h
    have hn : n ∈ s.filter (fun k => n ≤ k) := Finset.mem_filter.mpr ⟨h, le_refl n⟩
    have := hsub hn
    rw [Finset.mem_filter] at this
    omega

/-- `cubic_update_on_new_ack` only touches the window fields: the
receiver-side `next_seq` is preserved. -/
theorem CubicFlow.cubic_update_next_seq (cbrt : ℚ → ℚ) (now : ℚ) (f : CubicFlow) :
    (f.cubic_update_on_new_ack cbrt now).next_seq = f.next_seq := by
  obtain ⟨st, cw, ss, un, sq, la, dc, ns, va, rc, cC, cb, wm, ep, ck⟩ := f
  unfold CubicFlow.cubic_update_on_new_ack CubicFlow.epoch_init
  cases ep <;> dsimp only <;>
    (first | rfl | (split <;> (first | rfl | (split <;> (first | rfl | (split <;> rfl))))))

/-- `cubic_update_on_new_ack` only touches the window fields:
`last_ack` is preserved. -/
theorem CubicFlow.cubic_update_last_ack (cbrt : ℚ → ℚ) (now : ℚ) (f : CubicFlow) :
    (f.cubic_update_on_new_ack cbrt now).last_ack = f.last_ack := by
  obtain ⟨st, cw, ss, un, sq, la, dc, ns, va, rc, cC, cb, wm, ep, ck⟩ := f
  unfold CubicFlow.cubic_update_on_new_ack CubicFlow.epoch_init
  cases ep <;> dsimp only <;>
    (first | rfl | (split <;> (first | rfl | (split <;> (first | rfl | (split <;> rfl))))))

/-- The Reno ACK handler never touches the receiver-side `next_seq`,
and never aborts. -/
theorem reno_on_ack_next_seq (now : ℚ) (a : ℤ) (f : RenoFlow) :
    (f.on_ack now a).map (fun r => r.1.next_seq) = .ok f.next_seq := by
  obtain ⟨st, cw, ss, un, sq, la, dc, cc, ns, va, rc⟩ := f
  rw [RenoFlow.on_ack]
  split
  · rfl
  · split
    · cases st <;> dsimp only <;> (first | rfl | (split <;> rfl))
    · dsimp only
      split
      · unfold RenoFlow.handle_retransmit
        dsimp only
        split <;> rfl
      · split <;> rfl

/-- The Reno ACK handler sets `last_ack` to the ACK value exactly when
it is strictly newer, and never aborts. -/
theorem reno_on_ack_last_ack (now : ℚ) (a : ℤ) (f : RenoFlow) :
    (f.on_ack now a).map (fun r => r.1.last_ack) =
      .ok (if f.last_ack < a then a else f.last_ack) := by
  obtain ⟨st, cw, ss, un, sq, la, dc, cc, ns, va, rc⟩ := f
  rw [RenoFlow.on_ack]
  dsimp only
  split
  · rename_i h1
    rw [if_neg (show ¬ la < a by omega)]
    rfl
  · rename_i h1
    split
    · cases st <;> (try dsimp only) <;> (first | rfl | (split <;> rfl))
    · (try dsimp only)
      split
      · unfold RenoFlow.handle_retransmit
        dsimp only
        split <;> rfl
      · split <;> rfl

/-- The Cubic ACK handler never touches the receiver-side `next_seq`,
and never aborts. -/
theorem cubic_on_ack_next_seq (cbrt : ℚ → ℚ) (now : ℚ) (a : ℤ) (f : CubicFlow) :
    (f.on_ack cbrt now a).map (fun r => r.1.next_seq) = .ok f.next_seq := by
  obtain ⟨st, cw, ss, un, sq, la, dc, ns, va, rc, cC, cb, wm, ep, ck⟩ := f
  rw [CubicFlow.on_ack]
  split
  · rfl
  · split
    · cases st
      · dsimp only
        (first | rfl | (split <;> rfl))
      · dsimp only [Except.map]
        rw [CubicFlow.cubic_update_next_seq]
      · dsimp only [Except.map]
        rw [CubicFlow.cubic_update_next_seq]
    · dsimp only
      split
      · unfold CubicFlow.handle_fast_retransmit
        dsimp only
        split <;> rfl
      · split <;> rfl

/-- The Cubic ACK handler sets `last_ack` to the ACK value exactly when
it is strictly newer, and never aborts. -/
theorem cubic_on_ack_last_ack (cbrt : ℚ → ℚ) (now : ℚ) (a : ℤ) (f : CubicFlow) :
    (f.on_ack cbrt now a).map (fun r => r.1.last_ack) =
      .ok (if f.last_ack < a then a else f.last_ack) := by
  obtain ⟨st, cw, ss, un, sq, la, dc, ns, va, rc, cC, cb, wm, ep, ck⟩ := f
  rw [CubicFlow.on_ack]
  dsimp only
  split
  · rename_i h1
    rw [if_neg (show ¬ la < a by omega)]
    rfl
  · rename_i h1
    split
    · cases st
      · (try dsimp only)
        (first | rfl | (split <;> rfl))
      · dsimp only [Except.map]
      · dsimp only [Except.map]
    · (try dsimp only)
      split
      · unfold CubicFlow.handle_fast_retransmit
        dsimp only
        split <;> rfl
      · split <;> rfl

/-! ## Claim theorems -/

/-- C4: with a loss module attached, `Link.enqueue` consults
`should_drop` first and keeps its state update on every branch
(unconditional advance); a drop decision rejects the packet leaving the
queue untouched; otherwise a queue at capacity rejects as queue-full;
otherwise the packet is appended to the FIFO queue and admitted. -/
theorem link_admission_with_loss_module {σ : Type} (sd : σ → Packet → Bool × σ)
    (pkt : Packet) (l : LinkState σ) (hcap : l.queue.length ≤ l.capacity) :
    (Link.enqueue (some sd) pkt l).2.lossState = (sd l.lossState pkt).2 ∧
    ((sd l.lossState pkt).1 = true →
      Link.enqueue (some sd) pkt l =
        (.DroppedByLoss, { l with lossState := (sd l.lossState pkt).2 })) ∧
    ((sd l.lossState pkt).1 = false → l.queue.length = l.capacity →
      Link.enqueue (some sd) pkt l =
        (.DroppedQueueFull, { l with lossState := (sd l.lossState pkt).2 })) ∧
    ((sd l.lossState pkt).1 = false → l.queue.length ≠ l.capacity →
      Link.enqueue (some sd) pkt l =
        (.Admitted, { l with lossState := (sd l.lossState pkt).2,
                             queue := l.queue ++ [pkt] })) := by
  unfold Link.enqueue
  dsimp only
  refine ⟨?_, ?_, ?_, ?_⟩
  · split
    · rfl
    · split <;> rfl
  · intro h
    rw [if_pos (by rw [h])]
  · intro h hfull
    rw [if_neg (by rw [h]; simp), if_neg (by omega)]
  · intro h hne
    rw [if_neg (by rw [h]; simp), if_pos (by omega)]

/-- C4 witness: a concrete admission through a loss module that does
not drop, into a non-full queue. -/
theorem link_admission_with_loss_module_witness :
    (Link.enqueue (some (fun (s : GEState) (_ : Packet) => (false, s))) ⟨0, 1500, none⟩
        ⟨[], 2, .GOOD⟩).2.lossState =
      ((fun (s : GEState) (_ : Packet) => (false, s)) GEState.GOOD ⟨0, 1500, none⟩).2 ∧
    Link.enqueue (some (fun (s : GEState) (_ : Packet) => (false, s))) ⟨0, 1500, none⟩
        ⟨[], 2, .GOOD⟩ =
      (.Admitted, ⟨[⟨0, 1500, none⟩], 2,
        ((fun (s : GEState) (_ : Packet) => (false, s)) GEState.GOOD ⟨0, 1500, none⟩).2⟩) := by
  have h := link_admission_with_loss_module (fun (s : GEState) (_ : Packet) => (false, s))
    ⟨0, 1500, none⟩ ⟨[], 2, .GOOD⟩ (by decide)
  exact ⟨h.1, h.2.2.2 rfl (by decide)⟩

/-- C6: the link delivers a dequeued packet to the destination flow
exactly `tx_time + prop_delay` seconds after dequeue, with
`tx_time = size_bytes * 8 / (bandwidth_mbps * 1e6)`; at 10 Mbps with
0.1 s propagation delay, a 1000-byte packet takes exactly 0.1008 s. -/
theorem link_transmission_timing :
    (∀ (bandwidth_mbps prop_delay : ℚ) (pkt : Packet) (rest : List Packet),
      Link.runStep bandwidth_mbps prop_delay (pkt :: rest) =
        some (pkt, txTime bandwidth_mbps pkt.size_bytes + prop_delay, rest)) ∧
    txTime 10 1000 + 1 / 10 = 1008 / 10000 := by
  refine ⟨fun _ _ _ _ => rfl, by norm_num [txTime]⟩

/-- C8: `BurstyLoss.should_drop`, as a deterministic function of the
two random draws, first advances the GOOD/BAD state (GOOD→BAD with
probability `1/avg_good_duration`, BAD→GOOD with probability
`1/avg_bad_duration`, i.e. exactly when the first draw falls below that
threshold) on every call regardless of the outcome, and only then
decides the drop using the updated state's probability. -/
theorem bursty_should_drop_state_first (u1 u2 : ℚ) (b : BurstyLoss) (pkt : Packet) :
    (BurstyLoss.should_drop u1 u2 b pkt).2 = b.update_state u1 ∧
    ((b.update_state u1).state =
      match b.state with
      | .GOOD => if u1 < 1 / (b.avg_good_duration : ℚ) then GEState.BAD else GEState.GOOD
      | .BAD => if u1 < 1 / (b.avg_bad_duration : ℚ) then GEState.GOOD else GEState.BAD) ∧
    ((BurstyLoss.should_drop u1 u2 b pkt).1 = true ↔
      (if (b.update_state u1).state = GEState.GOOD then u2 < b.p_good else u2 < b.p_bad)) := by
  obtain ⟨st, pg, pb, ag, ab⟩ := b
  refine ⟨?_, ?_, ?_⟩ <;>
    cases st <;>
    simp only [BurstyLoss.should_drop, BurstyLoss.update_state] <;>
    split_ifs <;>
    simp_all

/-- C10: invoking the timeout handler with an empty unacked map is a
silent no-op for both variants: the flow is returned unchanged, nothing
is retransmitted, no event is emitted, and the run is not aborted. -/
theorem timeout_empty_unacked_silent_noop (now : ℚ) (f : RenoFlow) (g : CubicFlow)
    (hf : f.unacked = []) (hg : g.unacked = []) :
    f.handle_timeout now = .ok (f, none, []) ∧
    g.handle_timeout now = .ok (g, none, []) := by
  constructor
  · rw [RenoFlow.handle_timeout.eq_def, hf]
  · rw [CubicFlow.handle_timeout.eq_def, hg]

/-- C10 witness: the no-op at the freshly constructed flows. -/
theorem timeout_empty_unacked_silent_noop_witness :
    RenoFlow.init.handle_timeout 0 = .ok (RenoFlow.init, none, []) ∧
    CubicFlow.init.handle_timeout 0 = .ok (CubicFlow.init, none, []) :=
  timeout_empty_unacked_silent_noop 0 RenoFlow.init CubicFlow.init rfl rfl

/-- `epoch_init` does not change the congestion window. -/
theorem CubicFlow.epoch_init_cwnd (cbrt : ℚ → ℚ) (now : ℚ) (f : CubicFlow) :
    (f.epoch_init cbrt now).cwnd = f.cwnd := by
  unfold CubicFlow.epoch_init
  split <;> rfl

/-- C5: the new-ACK cubic update never decreases `cwnd` (decreases
happen only in the loss handlers), increases it by at most +1.0 per
ACK, and the computed `W_cubic` value is floored at 1.0. -/
theorem cubic_newack_window_bounds (cbrt : ℚ → ℚ) (now : ℚ) (f : CubicFlow) :
    f.cwnd ≤ (f.cubic_update_on_new_ack cbrt now).cwnd ∧
    (f.cubic_update_on_new_ack cbrt now).cwnd ≤ f.cwnd + 1 ∧
    1 ≤ (f.epoch_init cbrt now).W_cubic now := by
  have hcw := CubicFlow.epoch_init_cwnd cbrt now f
  refine ⟨?_, ?_, ?_⟩
  · unfold CubicFlow.cubic_update_on_new_ack
    dsimp only
    split
    · rename_i h
      dsimp only
      rw [hcw] at h ⊢
      have h0 : (0 : ℚ) ≤ min ((f.epoch_init cbrt now).W_cubic now - f.cwnd) 1 :=
        le_min (by linarith) (by norm_num)
      linarith
    · rw [hcw]
  · unfold CubicFlow.cubic_update_on_new_ack
    dsimp only
    split
    · rename_i h
      dsimp only
      rw [hcw] at h ⊢
      have h1 : min ((f.epoch_init cbrt now).W_cubic now - f.cwnd) 1 ≤ 1 :=
        min_le_right _ _
      linarith
    · rw [hcw]
      linarith
  · unfold CubicFlow.W_cubic
    dsimp only
    split
    · exact le_refl 1
    · rename_i h
      linarith [not_lt.mp h]

/-- C1: Reno timeout with a non-empty unacked map: `ssthresh` is set to
`max(cwnd/2, 1)` from the pre-update `cwnd`, `cwnd` reset to 1, state
to `SLOW_START`, the dup-ACK counter cleared, and the lowest-sequence
unacked packet (third and fourth conjuncts: it is the minimum of the
unacked sequence numbers) is retransmitted with `send_time = now` and
handed back to the link. -/
theorem reno_timeout_behavior (now : ℚ) (f : RenoFlow) (h : f.unacked ≠ []) :
    f.handle_timeout now = .ok
      ({ f with
          ssthresh := max (f.cwnd / 2) 1
          cwnd := 1
          state := .SLOW_START
          dup_ack_count := 0
          ca_ack_count := 0
          unacked := f.unacked.map fun q =>
            if q.seq = minSeqD f.unacked then { q with send_time := some now } else q },
       some (minSeqD f.unacked),
       [.timeoutEvent, .cwndRecord 1, .retransmitTimeout (minSeqD f.unacked)]) ∧
    minSeqD f.unacked ∈ f.unacked.map Packet.seq ∧
    (f.unacked.all fun q => decide (minSeqD f.unacked ≤ q.seq)) = true := by
  refine ⟨?_, minSeqD_mem _ h, ?_⟩
  · rw [RenoFlow.handle_timeout.eq_def]
    cases hu : f.unacked with
    | nil => exact absurd hu h
    | cons p ps => rfl
  · rw [List.all_eq_true]
    intro q hq
    simpa using minSeqD_le f.unacked q hq

/-- Concrete flow with two outstanding packets for the C1 witness. -/
def renoTimeoutW : RenoFlow :=
  { RenoFlow.init with
      cwnd := 10
      unacked := [⟨5, 1500, some 0⟩, ⟨3, 1500, none⟩] }

/-- C1 witness: the timeout behaviour at a concrete flow. -/
theorem reno_timeout_behavior_witness :
    renoTimeoutW.handle_timeout 2 = .ok
      ({ renoTimeoutW with
          ssthresh := max (renoTimeoutW.cwnd / 2) 1
          cwnd := 1
          state := .SLOW_START
          dup_ack_count := 0
          ca_ack_count := 0
          unacked := renoTimeoutW.unacked.map fun q =>
            if q.seq = minSeqD renoTimeoutW.unacked then { q with send_time := some 2 } else q },
       some (minSeqD renoTimeoutW.unacked),
       [.timeoutEvent, .cwndRecord 1, .retransmitTimeout (minSeqD renoTimeoutW.unacked)]) ∧
    minSeqD renoTimeoutW.unacked ∈ renoTimeoutW.unacked.map Packet.seq ∧
    (renoTimeoutW.unacked.all fun q => decide (minSeqD renoTimeoutW.unacked ≤ q.seq)) = true :=
  reno_timeout_behavior 2 renoTimeoutW (by decide)

/-- C2: a duplicate ACK (`ack_seq = last_ack`) that brings the counter
to exactly 3 outside `FAST_RECOVERY` triggers fast retransmit —
`ssthresh` becomes `max(cwnd/2, 1)` from the current `cwnd`, `cwnd`
becomes `ssthresh + 3`, the state becomes `FAST_RECOVERY`; a duplicate
ACK received while already in `FAST_RECOVERY` instead inflates `cwnd`
by 1. -/
theorem reno_dup_ack_behavior (now : ℚ) (a : ℤ) (f : RenoFlow) (ha : a = f.last_ack) :
    (f.dup_ack_count = 2 → f.state ≠ .FAST_RECOVERY →
      (f.on_ack now a).map (fun r => (r.1.ssthresh, r.1.cwnd, r.1.state)) =
        .ok (max (f.cwnd / 2) 1, max (f.cwnd / 2) 1 + 3, .FAST_RECOVERY)) ∧
    (f.state = .FAST_RECOVERY →
      f.on_ack now a = .ok ({ f with
          dup_ack_count := f.dup_ack_count + 1
          cwnd := f.cwnd + 1 }, none, [.cwndRecord (f.cwnd + 1)])) := by
  obtain ⟨st, cw, ss, un, sq, la, dc, cc, ns, va, rc⟩ := f
  dsimp only at ha ⊢
  subst ha
  constructor
  · intro hdc hst
    subst hdc
    rw [RenoFlow.on_ack]
    rw [if_neg (lt_irrefl a), if_neg (lt_irrefl a)]
    dsimp only
    rw [if_pos ⟨by norm_num, hst⟩]
    unfold RenoFlow.handle_retransmit
    dsimp only
    split <;> rfl
  · intro hst
    subst hst
    rw [RenoFlow.on_ack]
    rw [if_neg (lt_irrefl a), if_neg (lt_irrefl a)]
    dsimp only
    rw [if_neg (by simp), if_pos rfl]

/-- Concrete flows for the C2 witness: one two-dup-ACKs flow outside
recovery, one flow already in recovery. -/
def renoDupW : RenoFlow :=
  { RenoFlow.init with
      last_ack := 5
      dup_ack_count := 2
      cwnd := 10
      unacked := [⟨6, 1500, some 0⟩] }

/-- Second concrete flow for the C2 witness. -/
def renoFRW : RenoFlow :=
  { RenoFlow.init with last_ack := 5, state := .FAST_RECOVERY, cwnd := 7 }

/-- C2 witness: the two duplicate-ACK behaviours at concrete flows. -/
theorem reno_dup_ack_behavior_witness :
    ((renoDupW.on_ack 0 5).map (fun r => (r.1.ssthresh, r.1.cwnd, r.1.state)) =
      .ok (max (renoDupW.cwnd / 2) 1, max (renoDupW.cwnd / 2) 1 + 3, .FAST_RECOVERY)) ∧
    (renoFRW.on_ack 0 5 = .ok ({ renoFRW with
        dup_ack_count := renoFRW.dup_ack_count + 1
        cwnd := renoFRW.cwnd + 1 }, none, [.cwndRecord (renoFRW.cwnd + 1)])) :=
  ⟨(reno_dup_ack_behavior 0 5 renoDupW rfl).1 rfl (by decide),
   (reno_dup_ack_behavior 0 5 renoFRW rfl).2 rfl⟩

/-- Reno flow with an empty unacked set, used for C3. -/
def renoEmptyW : RenoFlow :=
  { RenoFlow.init with
      cwnd := 10
      last_ack := 5 }

/-- Cubic flow with an empty unacked set, used for C3. -/
def cubicEmptyW : CubicFlow :=
  { CubicFlow.init with
      cwnd := 10
      last_ack := 5 }

/-- C3 counterexample: a fast retransmit attempted with an empty
unacked set does NOT abort the run. Both handlers return an ordinary
`.ok` result (no `.error` outcome occurs): the window reduction is
still applied, the no-candidate diagnostic is emitted, and nothing is
retransmitted — the violation is silently tolerated. -/
theorem fast_retransmit_empty_unacked_cex :
    isAbort (renoEmptyW.handle_retransmit 0 5) = false ∧
    isAbort (cubicEmptyW.handle_fast_retransmit 0 5) = false ∧
    renoEmptyW.handle_retransmit 0 5 = .ok
      ({ renoEmptyW with ssthresh := 5, cwnd := 8, state := .FAST_RECOVERY }, none,
       [.fastRecoveryEnter, .cwndRecord 8, .noCandidate 5]) ∧
    cubicEmptyW.handle_fast_retransmit 0 5 = .ok
      ({ cubicEmptyW with
          W_max := 10
          cwnd := 7
          ssthresh := 7
          state := .FAST_RECOVERY
          dup_ack_count := 0
          epoch_start := none }, none,
       [.fastRecoveryEnter, .cwndRecord 7, .noCandidate 5]) := by
  refine ⟨rfl, rfl, rfl, ?_⟩
  have h7 : max ((10 : ℚ) * (7 / 10)) 1 = 7 := by norm_num
  unfold CubicFlow.handle_fast_retransmit cubicEmptyW CubicFlow.init
  dsimp only
  rw [List.filter_nil]
  norm_num

/-- C3 amended: a fast retransmit attempted with an empty unacked set
is silently tolerated for both variants, not fatal: the window
reduction and state change still apply, the no-candidate diagnostic
event is emitted, nothing is retransmitted, and the handlers return
normally (`.ok`) instead of aborting. -/
theorem fast_retransmit_empty_unacked_tolerated (now : ℚ) (a : ℤ)
    (f : RenoFlow) (g : CubicFlow) (hf : f.unacked = []) (hg : g.unacked = []) :
    f.handle_retransmit now a = .ok
      ({ f with
          ssthresh := max (f.cwnd / 2) 1
          cwnd := max (f.cwnd / 2) 1 + 3
          state := .FAST_RECOVERY }, none,
       [.fastRecoveryEnter, .cwndRecord (max (f.cwnd / 2) 1 + 3), .noCandidate a]) ∧
    g.handle_fast_retransmit now a = .ok
      ({ g with
          W_max := g.cwnd
          cwnd := max (g.cwnd * g.beta) 1
          ssthresh := max (g.cwnd * g.beta) 1
          state := .FAST_RECOVERY
          dup_ack_count := 0
          epoch_start := none }, none,
       [.fastRecoveryEnter, .cwndRecord (max (g.cwnd * g.beta) 1), .noCandidate a]) := by
  constructor
  · unfold RenoFlow.handle_retransmit
    dsimp only
    rw [hf, List.filter_nil]
    rfl
  · unfold CubicFlow.handle_fast_retransmit
    dsimp only
    rw [hg, List.filter_nil]
    rfl

/-- C3 witness for the amended statement: the tolerated no-candidate
path at the freshly constructed flows. -/
theorem fast_retransmit_empty_unacked_tolerated_witness :
    RenoFlow.init.handle_retransmit 1 0 = .ok
      ({ RenoFlow.init with
          ssthresh := max (RenoFlow.init.cwnd / 2) 1
          cwnd := max (RenoFlow.init.cwnd / 2) 1 + 3
          state := .FAST_RECOVERY }, none,
       [.fastRecoveryEnter, .cwndRecord (max (RenoFlow.init.cwnd / 2) 1 + 3),
        .noCandidate 0]) ∧
    CubicFlow.init.handle_fast_retransmit 1 0 = .ok
      ({ CubicFlow.init with
          W_max := CubicFlow.init.cwnd
          cwnd := max (CubicFlow.init.cwnd * CubicFlow.init.beta) 1
          ssthresh := max (CubicFlow.init.cwnd * CubicFlow.init.beta) 1
          state := .FAST_RECOVERY
          dup_ack_count := 0
          epoch_start := none }, none,
       [.fastRecoveryEnter, .cwndRecord (max (CubicFlow.init.cwnd * CubicFlow.init.beta) 1),
        .noCandidate 0]) :=
  fast_retransmit_empty_unacked_tolerated 1 0 RenoFlow.init CubicFlow.init rfl rfl

/-- If Reno `on_ack` returns normally, the receiver-side `next_seq` of
the result equals that of the input flow. -/
theorem reno_on_ack_ok_next_seq (now : ℚ) (a : ℤ) (f : RenoFlow) (r : RenoResult)
    (h : f.on_ack now a = .ok r) : r.1.next_seq = f.next_seq := by
  have hm := reno_on_ack_next_seq now a f
  rw [h] at hm
  simpa [Except.map] using hm

/-- Reno `on_ack` never aborts. -/
theorem reno_on_ack_no_abort (now : ℚ) (a : ℤ) (f : RenoFlow) (e : String) :
    f.on_ack now a ≠ .error e := by
  intro h
  have hm := reno_on_ack_next_seq now a f
  rw [h] at hm
  simp [Except.map] at hm

/-- If Cubic `on_ack` returns normally, the receiver-side `next_seq`
of the result equals that of the input flow. -/
theorem cubic_on_ack_ok_next_seq (cbrt : ℚ → ℚ) (now : ℚ) (a : ℤ) (g : CubicFlow)
    (r : CubicResult) (h : g.on_ack cbrt now a = .ok r) : r.1.next_seq = g.next_seq := by
  have hm := cubic_on_ack_next_seq cbrt now a g
  rw [h] at hm
  simpa [Except.map] using hm

/-- Cubic `on_ack` never aborts. -/
theorem cubic_on_ack_no_abort (cbrt : ℚ → ℚ) (now : ℚ) (a : ℤ) (g : CubicFlow)
    (e : String) : g.on_ack cbrt now a ≠ .error e := by
  intro h
  have hm := cubic_on_ack_next_seq cbrt now a g
  rw [h] at hm
  simp [Except.map] at hm

/-- C9: for both variants, `last_ack` is monotone under `on_ack` —
stale (`<`) and duplicate (`=`) ACKs leave it unchanged and strictly
newer ACKs raise it to exactly the ACK value — and the receiver-side
`next_seq` is non-decreasing under every `on_packet_arrival` call. -/
theorem ack_receiver_monotonicity :
    (∀ (now : ℚ) (a : ℤ) (f : RenoFlow),
      (f.on_ack now a).map (fun r => r.1.last_ack) =
        .ok (if f.last_ack < a then a else f.last_ack)) ∧
    (∀ (cbrt : ℚ → ℚ) (now : ℚ) (a : ℤ) (g : CubicFlow),
      (g.on_ack cbrt now a).map (fun r => r.1.last_ack) =
        .ok (if g.last_ack < a then a else g.last_ack)) ∧
    (∀ (now : ℚ) (pkt : Packet) (f : RenoFlow),
      (f.on_packet_arrival now pkt).map (fun r => decide (f.next_seq ≤ r.1.next_seq)) =
        .ok true) ∧
    (∀ (cbrt : ℚ → ℚ) (now : ℚ) (pkt : Packet) (g : CubicFlow),
      (g.on_packet_arrival cbrt now pkt).map (fun r => decide (g.next_seq ≤ r.1.next_seq)) =
        .ok true) := by
  refine ⟨reno_on_ack_last_ack, cubic_on_ack_last_ack, ?_, ?_⟩
  · intro now pkt f
    unfold RenoFlow.on_packet_arrival
    dsimp only
    split
    · rename_i heq
      dsimp only [Except.map]
      rw [reno_on_ack_ok_next_seq _ _ _ _ heq]
      split
      · dsimp only
        rw [decide_eq_true (advanceNext_le _ _)]
      · dsimp only
        rw [decide_eq_true (le_refl _)]
    · rename_i heq
      exact absurd heq (reno_on_ack_no_abort _ _ _ _)
  · intro cbrt now pkt g
    unfold CubicFlow.on_packet_arrival
    dsimp only
    split
    · rename_i heq
      dsimp only [Except.map]
      rw [cubic_on_ack_ok_next_seq _ _ _ _ _ heq]
      split
      · dsimp only
        rw [decide_eq_true (advanceNext_le _ _)]
      · dsimp only
        rw [decide_eq_true (le_refl _)]
    · rename_i heq
      exact absurd heq (cubic_on_ack_no_abort _ _ _ _ _)

/-- Extract the flow from a handler result; the fallback keeps the
function total (the handlers never abort). -/
def okFlowD (d : RenoFlow) : Except String RenoResult → RenoFlow
  | .ok r => r.1
  | .error _ => d

/-- State of a fresh Reno flow after `k` consecutive new ACKs
(ACK values 0, 1, 2, ... arriving in order) with no loss. -/
def renoAfterAcks : ℕ → RenoFlow
  | 0 => RenoFlow.init
  | k + 1 => okFlowD (renoAfterAcks k) ((renoAfterAcks k).on_ack 0 (k : ℤ))

/-- C7: from the initial state (`cwnd = 1`, `ssthresh = 64`), after `k`
consecutive new ACKs with no loss, `cwnd = min (1 + k) 64`, each new
ACK adds exactly 1 while in slow start, and the flow is still in
`SLOW_START` exactly until `cwnd ≥ ssthresh` first holds (after the
63rd ACK, when `cwnd` reaches 64, it is in `CONGESTION_AVOID`). -/
theorem reno_slow_start_growth (k : ℕ) (hk : k ≤ 63) :
    (renoAfterAcks k).cwnd = min (1 + k) 64 ∧
    ((renoAfterAcks k).state = .SLOW_START ↔ k < 63) ∧
    (k < 63 → (renoAfterAcks (k + 1)).cwnd = (renoAfterAcks k).cwnd + 1) := by
  revert hk
  revert k
  decide

/-- C7 witness: the slow-start growth facts at `k = 10`. -/
theorem reno_slow_start_growth_witness :
    (renoAfterAcks 10).cwnd = min (1 + 10) 64 ∧
    ((renoAfterAcks 10).state = .SLOW_START ↔ 10 < 63) ∧
    (10 < 63 → (renoAfterAcks (10 + 1)).cwnd = (renoAfterAcks 10).cwnd + 1) :=
  reno_slow_start_growth 10 (by norm_num)

end TCPSim
